import Mathlib

/-!
Verification development for the AstraRAG repository.

The frontend, database schema and API schemas are embedded from the
TypeScript/SQL sources under the repository.  The backend pipeline
(ingestion coordinator, index synchronizer, retrieval/reranking engine,
answer assembler) is not part of the source tree; those components are
modelled from the specification, and every such definition carries a doc
comment starting with "Modelled from the spec:".
-/

namespace AstraRAG

/-! ## Search page: search history (src/frontend/src/app/search/page.tsx, lines 176-182) -/

/-- The JavaScript String.trim used by saveToHistory, written out over the
character list so that it evaluates: whitespace is removed from both ends
of the string. -/
def jsTrim (s : String) : List Char :=
  ((s.data.dropWhile Char.isWhitespace).reverse.dropWhile Char.isWhitespace).reverse

/-- The saveToHistory function of SearchPageContent
(src/frontend/src/app/search/page.tsx lines 176-182): a blank
(whitespace-only) query is ignored — the JavaScript guard is
if (!query.trim()) return, and a string is falsy exactly when it is empty —
otherwise the query is prepended, any previous occurrence of the same query
is filtered out, and the result is truncated to the first 10 entries
(slice(0, 10)). -/
def saveToHistory (query : String) (searchHistory : List String) : List String :=
  if jsTrim query = [] then searchHistory
  else (query :: searchHistory.filter (fun h => h ≠ query)).take 10

/-! ## Shared axios client: 401 response interceptor (src/frontend/src/services/api.ts, lines 23-49) -/

/-- The two tokens the client keeps in localStorage. -/
structure TokenStorage where
  accessToken : Option String
  refreshToken : Option String
deriving DecidableEq

/-- Outcome of the POST /auth/refresh call made by the interceptor. -/
inductive RefreshOutcome where
  | success (newAccessToken : String)
  | failure
deriving DecidableEq

/-- What the response interceptor does with the failed request:
retry it exactly once via the bare axios instance (which carries no
response interceptor), or reject with the original error. -/
inductive InterceptorAction where
  | retryOriginal (authToken : String)
  | rejectOriginal
deriving DecidableEq

/-- Result of one run of the response interceptor. -/
structure InterceptorResult where
  storage : TokenStorage
  redirectedToLogin : Bool
  action : InterceptorAction
deriving DecidableEq

/-- The axios response interceptor of src/frontend/src/services/api.ts
lines 23-49.  On a 401 with a stored refresh token it refreshes, stores the
new access token and retries the original request once; on refresh failure
it removes both tokens, redirects to /login and rejects with the original
error.  On a 401 without a stored refresh token it falls through and
rejects with the original error, leaving storage untouched. -/
def responseInterceptor (status : Nat) (st : TokenStorage)
    (refreshCall : RefreshOutcome) : InterceptorResult :=
  if status = 401 then
    match st.refreshToken with
    | some _ =>
      match refreshCall with
      | RefreshOutcome.success t =>
        { storage := { st with accessToken := some t }
          redirectedToLogin := false
          action := InterceptorAction.retryOriginal t }
      | RefreshOutcome.failure =>
        { storage := { accessToken := none, refreshToken := none }
          redirectedToLogin := true
          action := InterceptorAction.rejectOriginal }
    | none =>
      { storage := st
        redirectedToLogin := false
        action := InterceptorAction.rejectOriginal }
  else
    { storage := st
      redirectedToLogin := false
      action := InterceptorAction.rejectOriginal }

/-- Outcome of one HTTP attempt, as seen by the axios client. -/
inductive HttpOutcome where
  | ok (body : String)
  | httpError (status : Nat)
deriving DecidableEq

/-- A request through the shared api instance: a non-error first response is
returned as is; an error response goes through responseInterceptor, and if
the interceptor retries, the second attempt's outcome is final because the
retry uses the bare axios instance (api.ts line 38), which has no response
interceptor.  Returns (number of attempts, storage, redirected, outcome). -/
def apiRequest (first retried : HttpOutcome) (st : TokenStorage)
    (refreshCall : RefreshOutcome) : Nat × TokenStorage × Bool × HttpOutcome :=
  match first with
  | HttpOutcome.ok b => (1, st, false, HttpOutcome.ok b)
  | HttpOutcome.httpError s =>
    let r := responseInterceptor s st refreshCall
    match r.action with
    | InterceptorAction.retryOriginal _ => (2, r.storage, r.redirectedToLogin, retried)
    | InterceptorAction.rejectOriginal =>
      (1, r.storage, r.redirectedToLogin, HttpOutcome.httpError s)

/-! ## Database schema (src/frontend/src/contexts/AuthContext.tsx, init-db.sql part, lines 214-257) -/

/-- One column of a CREATE TABLE statement. -/
structure ColumnSpec where
  name : String
  sqlType : String
  defaultValue : Option String
deriving DecidableEq

/-- The documents table of the astrarag_documents database
(src/frontend/src/contexts/AuthContext.tsx lines 214-225). -/
def documentsTableColumns : List ColumnSpec :=
  [ { name := "id", sqlType := "UUID", defaultValue := some "uuid_generate_v4()" }
  , { name := "original_filename", sqlType := "VARCHAR", defaultValue := none }
  , { name := "s3_path", sqlType := "VARCHAR", defaultValue := none }
  , { name := "uploaded_by", sqlType := "UUID", defaultValue := none }
  , { name := "uploaded_at", sqlType := "TIMESTAMP", defaultValue := some "NOW()" }
  , { name := "status", sqlType := "VARCHAR", defaultValue := some "active" }
  , { name := "metadata", sqlType := "JSONB", defaultValue := none }
  , { name := "file_type", sqlType := "VARCHAR", defaultValue := none }
  , { name := "file_size", sqlType := "BIGINT", defaultValue := none }
  , { name := "content_hash", sqlType := "VARCHAR", defaultValue := none } ]

/-- The chunks table of the astrarag_documents database
(src/frontend/src/contexts/AuthContext.tsx lines 250-257). -/
def chunksTableColumns : List ColumnSpec :=
  [ { name := "id", sqlType := "UUID", defaultValue := some "uuid_generate_v4()" }
  , { name := "doc_id", sqlType := "UUID", defaultValue := none }
  , { name := "chunk_index", sqlType := "INTEGER", defaultValue := none }
  , { name := "text", sqlType := "TEXT", defaultValue := none }
  , { name := "embed_id", sqlType := "VARCHAR", defaultValue := none }
  , { name := "token_count", sqlType := "INTEGER", defaultValue := none } ]

/-- The schema default for the status column of the documents table. -/
def schemaDefaultStatus : Option String :=
  (documentsTableColumns.find? (fun c => c.name = "status")).bind (fun c => c.defaultValue)

/-- The status a newly inserted documents row ends up with: the explicitly
supplied value if the INSERT names the column, otherwise the schema
default. -/
def newDocumentStatus (explicit : Option String) : Option String :=
  match explicit with
  | some s => some s
  | none => schemaDefaultStatus

/-! ## API response schemas (src/unnamed/part_004 lines 102-108 and
src/frontend/src/app/layout.tsx lines 357-405) -/

/-- Field names of the QueryResponse interface
(src/unnamed/part_004 lines 102-108). -/
def queryResponseFields : List String := ["answer", "sources"]

/-- Field names of one entry of QueryResponse.sources
(src/unnamed/part_004 lines 104-107). -/
def queryResponseSourceFields : List String := ["doc_id", "chunk_index"]

/-- Property names of the /qa/ask 200 response schema in the OpenAPI
specification (src/frontend/src/app/layout.tsx lines 382-397). -/
def qaAskResponseProperties : List String := ["answer", "sources"]

/-- Property names of one item of the sources array in the /qa/ask 200
response schema (src/frontend/src/app/layout.tsx lines 388-394). -/
def qaAskSourceProperties : List String := ["doc_id", "chunk_index"]

/-! ## Core pipeline, modelled from the spec

The ingestion coordinator, index synchronizer, retrieval/reranking engine
and answer assembler live in backend Python services that are not part of
the source tree (only the database schema, the API schemas and the
frontend callers are).  The definitions below model them from the
specification. -/

/-- Modelled from the spec: the per-document lifecycle state machine of
section 3 (the backend document service is missing from the source
tree). -/
inductive LifecycleState where
  | pendingReview
  | active
  | rejected
deriving DecidableEq

/-- Modelled from the spec: a Chunk record of section 3 (the backend chunk
persistence code is missing from the source tree); fields follow the
chunks table of the schema. -/
structure Chunk where
  docId : Nat
  chunkIndex : Nat
  text : String
  tokenCount : Nat
deriving DecidableEq

/-- Modelled from the spec: a Document record of section 3 (the backend
document service is missing from the source tree); uploadedAt doubles as
the recency key used by the reranker tie-break. -/
structure Document where
  docId : Nat
  contentHash : Nat
  uploader : Nat
  state : LifecycleState
  uploadedAt : Nat
deriving DecidableEq

/-- Modelled from the spec: the metadata store holding Document and Chunk
records (section 5: the metadata store is the source of truth). -/
structure Store where
  documents : List Document
  chunks : List Chunk
deriving DecidableEq

/-- Modelled from the spec: look up the lifecycle state of a document id in
the metadata store. -/
def docState (st : Store) (id : Nat) : Option LifecycleState :=
  (st.documents.find? (fun d => decide (d.docId = id))).map (fun d => d.state)

/-- Modelled from the spec: the step the chunker advances by between
consecutive chunks, target size minus overlap (section 4.1 step 4), kept
positive. -/
def chunkStep (target overlap : Nat) : Nat :=
  max 1 (target - overlap)

/-- Modelled from the spec: the chunker of section 4.1 step 4 (the backend
chunker is missing from the source tree) — overlapping windows of target
tokens, advancing by chunkStep. -/
def chunkTexts (target overlap : Nat) (tokens : List String) : List (List String) :=
  (List.range ((tokens.length + chunkStep target overlap - 1) / chunkStep target overlap)).map
    (fun i => (tokens.drop (i * chunkStep target overlap)).take target)

/-- Modelled from the spec: the chunk records persisted for one document,
indices assigned 0, 1, ... in order (section 3: chunk indices are 0-based
and contiguous). -/
def chunkRecords (docId target overlap : Nat) (tokens : List String) : List Chunk :=
  (chunkTexts target overlap tokens).enum.map (fun p =>
    { docId := docId
      chunkIndex := p.1
      text := String.intercalate " " p.2
      tokenCount := p.2.length })

/-- Result of one Ingest call: the returned document id and the new state
of the metadata store. -/
structure IngestResult where
  returnedId : Nat
  store : Store
deriving DecidableEq

/-- Modelled from the spec: stage 1 of the Ingestion Coordinator — the
content-hash dedup lookup: the first stored document with the same content
hash, the same uploader and a non-rejected state. -/
def dedupHit (st : Store) (uploader contentHash : Nat) : Option Document :=
  st.documents.find? (fun d =>
    decide (d.contentHash = contentHash ∧ d.uploader = uploader ∧
      d.state ≠ LifecycleState.rejected))

/-- Modelled from the spec: the Ingestion Coordinator of section 4.1 (the
backend document service is missing from the source tree).  Stage 1: if a
document with the same content hash and non-rejected state exists for the
same uploader, return its id and change nothing.  Otherwise chunk the
extracted tokens, create the document in pending_review, and persist the
full chunk set transactionally, atomically replacing any previous chunk
generation for that document id. -/
def ingest (target overlap : Nat) (st : Store) (uploader contentHash : Nat)
    (tokens : List String) (newId now : Nat) : IngestResult :=
  match dedupHit st uploader contentHash with
  | some existing => { returnedId := existing.docId, store := st }
  | none =>
    { returnedId := newId
      store :=
        { documents :=
            { docId := newId
              contentHash := contentHash
              uploader := uploader
              state := LifecycleState.pendingReview
              uploadedAt := now } :: st.documents.filter (fun d => decide (d.docId ≠ newId))
          chunks :=
            chunkRecords newId target overlap tokens ++
              st.chunks.filter (fun c => decide (c.docId ≠ newId)) } }

/-- The chunk indices currently stored for one document id. -/
def chunkIndicesOf (st : Store) (id : Nat) : List Nat :=
  (st.chunks.filter (fun c => decide (c.docId = id))).map (fun c => c.chunkIndex)

/-- Modelled from the spec: the Index Synchronizer invariant of section 3 —
the set of index entries visible to retrieval is exactly the chunks of
documents currently in active state. -/
def visibleEntries (st : Store) : List Chunk :=
  st.chunks.filter (fun c => decide (docState st c.docId = some LifecycleState.active))

/-- Modelled from the spec: the candidate-search ordering — descending by
similarity score. -/
def scoreOrder (score : Chunk → Nat) (a b : Chunk) : Prop :=
  score b ≤ score a

instance (score : Chunk → Nat) : DecidableRel (scoreOrder score) :=
  fun a b => by unfold scoreOrder; exact inferInstance

instance (score : Chunk → Nat) : IsTotal Chunk (scoreOrder score) :=
  ⟨by intro a b; unfold scoreOrder; omega⟩

instance (score : Chunk → Nat) : IsTrans Chunk (scoreOrder score) :=
  ⟨by intro a b c hab hbc; unfold scoreOrder at hab hbc ⊢; omega⟩

/-- Modelled from the spec: candidate search of section 4.3 step 2 (the
backend search service is missing from the source tree) — top-m entries of
the visible part of the vector index by descending similarity. -/
def vectorSearch (st : Store) (vectorScore : Chunk → Nat) (topM : Nat) : List Chunk :=
  (List.insertionSort (scoreOrder vectorScore) (visibleEntries st)).take topM

/-- Modelled from the spec: the deterministic rerank ordering of section
4.3 step 3 — descending relevance score, ties broken by document recency
(greater first) then chunk index (smaller first). -/
def rerankOrder (recency : Nat → Nat) (score : Chunk → Nat) (a b : Chunk) : Prop :=
  score b < score a ∨
    (score a = score b ∧
      (recency b.docId < recency a.docId ∨
        (recency a.docId = recency b.docId ∧ a.chunkIndex ≤ b.chunkIndex)))

instance (recency : Nat → Nat) (score : Chunk → Nat) :
    DecidableRel (rerankOrder recency score) :=
  fun a b => by unfold rerankOrder; exact inferInstance

instance (recency : Nat → Nat) (score : Chunk → Nat) :
    IsTotal Chunk (rerankOrder recency score) :=
  ⟨by intro a b; unfold rerankOrder; omega⟩

instance (recency : Nat → Nat) (score : Chunk → Nat) :
    IsTrans Chunk (rerankOrder recency score) :=
  ⟨by intro a b c hab hbc; unfold rerankOrder at hab hbc ⊢; omega⟩

/-- Modelled from the spec: reranking of section 4.3 step 3 (the backend
reranking client is missing from the source tree) — sort the deduplicated
candidates by the deterministic rerank ordering. -/
def rerank (recency : Nat → Nat) (score : Chunk → Nat) (candidates : List Chunk) : List Chunk :=
  List.insertionSort (rerankOrder recency score) candidates

/-- The chunk list a retrieval stage hands on, together with the degraded
marker of the failure policy of section 4.3. -/
structure RetrievalOutput where
  chunks : List Chunk
  degradedFlag : Bool
deriving DecidableEq

/-- Modelled from the spec: the rerank stage with its failure policy
(section 4.3): when the external reranking service answers, sort by its
scores; when it fails (none), degrade gracefully to the previous stage's
vector-search order and mark the output degraded. -/
def rerankStage (recency : Nat → Nat) (rerankService : Option (Chunk → Nat))
    (vectorOrdered : List Chunk) : RetrievalOutput :=
  match rerankService with
  | some score => { chunks := rerank recency score vectorOrdered, degradedFlag := false }
  | none => { chunks := vectorOrdered, degradedFlag := true }

/-- Modelled from the spec: Retrieve of section 4.3 (the backend retrieval
engine is missing from the source tree) — candidate search over the
visible index, rerank with graceful degradation, truncate to top_k. -/
def retrieve (st : Store) (vectorScore : Chunk → Nat) (recency : Nat → Nat)
    (rerankService : Option (Chunk → Nat)) (topM topK : Nat) : RetrievalOutput :=
  let afterRerank := rerankStage recency rerankService (vectorSearch st vectorScore topM)
  { chunks := afterRerank.chunks.take topK, degradedFlag := afterRerank.degradedFlag }

/-- Modelled from the spec: query expansion of section 4.3 step 1 — a small,
bounded number of paraphrased sub-queries obtained from an external
generation service; the step tolerates the service's failure (none) by
falling back to the single original query. -/
def expandQuery (expansionService : Option (String → List String)) (query : String)
    (bound : Nat) : List String :=
  match expansionService with
  | some gen => query :: (gen query).take bound
  | none => [query]

/-- Modelled from the spec: candidate deduplication of section 4.3 step 2 —
collapse the per-variant candidate lists, keeping the first (best-ranked)
occurrence of each chunk. -/
def dedupCandidates : List Chunk → List Chunk
  | [] => []
  | c :: rest => c :: dedupCandidates (rest.filter (fun x => decide (x ≠ c)))
termination_by l => l.length
decreasing_by
  simp only [List.length_cons]
  exact Nat.lt_succ_of_le (List.length_filter_le _ _)

/-- Modelled from the spec: Retrieve of section 4.3 with multi-query
expansion — expand the query (falling back to the single original query
when the expansion service fails), search the visible vector index once per
variant, deduplicate the candidates, rerank with graceful degradation, and
truncate to top_k. -/
def retrieveExpanded (st : Store) (expansionService : Option (String → List String))
    (expansionBound : Nat) (query : String) (variantScore : String → Chunk → Nat)
    (recency : Nat → Nat) (rerankService : Option (Chunk → Nat)) (topM topK : Nat) :
    RetrievalOutput :=
  let variants := expandQuery expansionService query expansionBound
  let candidates :=
    dedupCandidates ((variants.map (fun q => vectorSearch st (variantScore q) topM)).flatten)
  let afterRerank := rerankStage recency rerankService candidates
  { chunks := afterRerank.chunks.take topK, degradedFlag := afterRerank.degradedFlag }

/-! ## Answer assembler, modelled from the spec (section 4.4) -/

/-- Modelled from the spec: greedy selection of the answer assembler —
chunks are taken in rank order until the cumulative token count would
exceed the remaining budget; a chunk that does not fit is never split. -/
def assembleSelect (remaining : Nat) (ranked : List Chunk) : List Chunk :=
  match ranked with
  | [] => []
  | c :: rest =>
    if c.tokenCount ≤ remaining then c :: assembleSelect (remaining - c.tokenCount) rest
    else []

/-- Total token count of a chunk list. -/
def tokenSum (l : List Chunk) : Nat :=
  (l.map (fun c => c.tokenCount)).sum

/-- A citation entry: (document id, chunk index). -/
structure Citation where
  docId : Nat
  chunkIndex : Nat
deriving DecidableEq

/-- The context and citation list returned by the answer assembler. -/
structure AssembleOutput where
  context : List Chunk
  citations : List Citation
deriving DecidableEq

/-- Modelled from the spec: truncating an oversized chunk to the token
budget (section 4.4, the zero-chunks-fit case). -/
def truncateChunk (budget : Nat) (c : Chunk) : Chunk :=
  { c with tokenCount := min c.tokenCount budget }

/-- Modelled from the spec: Assemble of section 4.4 (the backend answer
assembler is missing from the source tree) — greedily select chunks in
rank order under the token budget; if zero chunks fit, truncate the single
most relevant chunk; cite every included chunk as (document id, chunk
index). -/
def assemble (ranked : List Chunk) (tokenBudget : Nat) : AssembleOutput :=
  let selected := assembleSelect tokenBudget ranked
  let included :=
    if selected.isEmpty then (ranked.take 1).map (truncateChunk tokenBudget) else selected
  { context := included
    citations := included.map (fun c => { docId := c.docId, chunkIndex := c.chunkIndex }) }

/-! ## Theorems -/

/-- C10: after saving a non-blank query to a duplicate-free search history,
the persisted history has at most 10 entries, no duplicate queries, and the
just-saved query as its first entry; saving a blank (whitespace-only) query
leaves the history unchanged. -/
theorem saveToHistory_invariant (query : String) (hist : List String)
    (hq : jsTrim query ≠ []) (hnd : hist.Nodup) :
    (saveToHistory query hist).length ≤ 10 ∧
    (saveToHistory query hist).Nodup ∧
    (saveToHistory query hist).head? = some query ∧
    ∀ blank : String, jsTrim blank = [] → saveToHistory blank hist = hist := by
  refine ⟨?_, ?_, ?_, ?_⟩
  · rw [saveToHistory, if_neg hq]
    exact List.length_take_le 10 _
  · rw [saveToHistory, if_neg hq]
    refine (List.take_sublist _ _).nodup ?_
    refine List.nodup_cons.mpr ⟨?_, hnd.filter _⟩
    intro hmem
    have h := (List.mem_filter.mp hmem).2
    simp at h
  · rw [saveToHistory, if_neg hq]
    rfl
  · intro blank hb
    rw [saveToHistory, if_pos hb]

/-- Witness for saveToHistory_invariant at a concrete query and history. -/
theorem saveToHistory_invariant_witness :
    jsTrim "refund policy" ≠ [] ∧ (["alpha", "beta"] : List String).Nodup ∧
    ((saveToHistory "refund policy" ["alpha", "beta"]).length ≤ 10 ∧
      (saveToHistory "refund policy" ["alpha", "beta"]).Nodup ∧
      (saveToHistory "refund policy" ["alpha", "beta"]).head? = some "refund policy" ∧
      ∀ blank : String, jsTrim blank = [] →
        saveToHistory blank ["alpha", "beta"] = ["alpha", "beta"]) :=
  ⟨by decide, by decide,
    saveToHistory_invariant "refund policy" ["alpha", "beta"] (by decide) (by decide)⟩

/-- C9 as stated is false: on a 401 response with no stored refresh token,
the interceptor leaves both stored tokens in place and does not redirect to
/login; it only propagates the original error. -/
theorem responseInterceptor_noRefresh_counterexample :
    (responseInterceptor 401
        { accessToken := some "expired-access", refreshToken := none }
        RefreshOutcome.failure).storage =
      { accessToken := some "expired-access", refreshToken := none } ∧
    (responseInterceptor 401
        { accessToken := some "expired-access", refreshToken := none }
        RefreshOutcome.failure).redirectedToLogin = false ∧
    (responseInterceptor 401
        { accessToken := some "expired-access", refreshToken := none }
        RefreshOutcome.failure).action = InterceptorAction.rejectOriginal := by
  decide

/-- C9 amended: on a 401 with a stored refresh token, the client obtains a
new access token, stores it, and retries the original request exactly once
with it; if the refresh call fails, both stored tokens are removed, the
browser is redirected to /login, and the original error is propagated; on a
401 with no stored refresh token the original error is propagated with the
stored tokens left untouched and no redirect; and a request is never
attempted more than twice (the 401 retry happens at most once, because the
retry bypasses the interceptor). -/
theorem responseInterceptor_amended :
    (∀ (a : Option String) (r t : String),
      responseInterceptor 401 ⟨a, some r⟩ (RefreshOutcome.success t) =
        ⟨⟨some t, some r⟩, false, InterceptorAction.retryOriginal t⟩) ∧
    (∀ (a : Option String) (r : String),
      responseInterceptor 401 ⟨a, some r⟩ RefreshOutcome.failure =
        ⟨⟨none, none⟩, true, InterceptorAction.rejectOriginal⟩) ∧
    (∀ (a : Option String) (rc : RefreshOutcome),
      responseInterceptor 401 ⟨a, none⟩ rc =
        ⟨⟨a, none⟩, false, InterceptorAction.rejectOriginal⟩) ∧
    (∀ (first retried : HttpOutcome) (st : TokenStorage) (rc : RefreshOutcome),
      (apiRequest first retried st rc).1 ≤ 2) := by
  refine ⟨fun a r t => rfl, fun a r => rfl, fun a rc => ?_, fun first retried st rc => ?_⟩
  · cases rc <;> rfl
  · cases first with
    | ok b => rw [apiRequest]; omega
    | httpError s =>
      rw [apiRequest]
      cases h : (responseInterceptor s st rc).action <;> simp [h]

/-- C2 evaluated at the failing input: the documents table schema defaults
the status column to active, so a documents row inserted without an
explicit status starts in the active state, not pending_review. -/
theorem newDocumentStatus_default_active :
    newDocumentStatus none = some "active" ∧
    newDocumentStatus none ≠ some "pending_review" := by
  decide

/-- C7 as stated is false: the Ask response schema carries no degraded
flag — both the QueryResponse interface and the /qa/ask OpenAPI response
schema expose only the fields answer and sources. -/
theorem qaAskResponse_no_degraded_flag :
    "degraded" ∉ queryResponseFields ∧ "degraded" ∉ qaAskResponseProperties := by
  decide

/-- C7 amended: when the external query-expansion service fails, Retrieve
falls back to the single original query and the pipeline still runs to
completion on that variant's candidates; when the external reranking
service fails, the rerank stage returns the previous stage's
vector-search-ordered chunks — marked degraded inside the retrieval
stage — rather than failing the query; but the /qa/ask response schema
exposes only answer and sources, so no degraded flag is visible to the
caller. -/
theorem retrieve_degrades_both_stages (st : Store) (query : String)
    (variantScore : String → Chunk → Nat) (recency : Nat → Nat)
    (expansionBound topM topK : Nat) :
    expandQuery none query expansionBound = [query] ∧
    (∀ rerankService : Option (Chunk → Nat),
      retrieveExpanded st none expansionBound query variantScore recency rerankService
          topM topK =
        { chunks := (rerankStage recency rerankService
              (dedupCandidates (vectorSearch st (variantScore query) topM))).chunks.take topK
          degradedFlag := (rerankStage recency rerankService
              (dedupCandidates (vectorSearch st (variantScore query) topM))).degradedFlag }) ∧
    (∀ candidates : List Chunk,
      rerankStage recency none candidates =
        { chunks := candidates, degradedFlag := true }) ∧
    "degraded" ∉ queryResponseFields ∧ "degraded" ∉ qaAskResponseProperties := by
  refine ⟨rfl, ?_, fun candidates => rfl, by decide, by decide⟩
  intro rerankService
  simp [retrieveExpanded, expandQuery]

/-- C8: the citation list of an Assemble result maps each included context
chunk to its (document id, chunk index) pair, and both source schemas give
every source entry exactly the fields doc_id and chunk_index. -/
theorem assemble_citations (ranked : List Chunk) (budget : Nat) :
    (assemble ranked budget).citations =
      (assemble ranked budget).context.map
        (fun c => { docId := c.docId, chunkIndex := c.chunkIndex }) ∧
    queryResponseSourceFields = ["doc_id", "chunk_index"] ∧
    qaAskSourceProperties = ["doc_id", "chunk_index"] :=
  ⟨rfl, rfl, rfl⟩

/-- The scenario input of the spec: five ranked chunks of 150 tokens
each. -/
def fiveRankedChunks : List Chunk :=
  [ { docId := 1, chunkIndex := 0, text := "r0", tokenCount := 150 }
  , { docId := 1, chunkIndex := 1, text := "r1", tokenCount := 150 }
  , { docId := 1, chunkIndex := 2, text := "r2", tokenCount := 150 }
  , { docId := 2, chunkIndex := 0, text := "r3", tokenCount := 150 }
  , { docId := 2, chunkIndex := 1, text := "r4", tokenCount := 150 } ]

/-- Token sum of a cons. -/
theorem tokenSum_cons (c : Chunk) (l : List Chunk) :
    tokenSum (c :: l) = c.tokenCount + tokenSum l := by
  simp [tokenSum]

/-- C5: the assembler selects chunks greedily in rank order — its selection
is always a prefix of the ranked list — the cumulative token count of the
selection never exceeds the budget, no included chunk is split, and on the
spec scenario (budget 500, five ranked chunks of 150 tokens) it includes
exactly the first 3 chunks, 450 tokens, excluding the 4th. -/
theorem assembleSelect_greedy :
    (∀ (budget : Nat) (ranked : List Chunk),
      ∃ n, assembleSelect budget ranked = ranked.take n) ∧
    (∀ (budget : Nat) (ranked : List Chunk),
      tokenSum (assembleSelect budget ranked) ≤ budget) ∧
    assembleSelect 500 fiveRankedChunks = fiveRankedChunks.take 3 ∧
    tokenSum (assembleSelect 500 fiveRankedChunks) = 450 := by
  refine ⟨?_, ?_, by decide, by decide⟩
  · intro budget ranked
    induction ranked generalizing budget with
    | nil => exact ⟨0, rfl⟩
    | cons c rest ih =>
      rw [assembleSelect]
      by_cases h : c.tokenCount ≤ budget
      · rw [if_pos h]
        obtain ⟨n, hn⟩ := ih (budget - c.tokenCount)
        exact ⟨n + 1, by rw [hn, List.take_succ_cons]⟩
      · rw [if_neg h]
        exact ⟨0, rfl⟩
  · intro budget ranked
    induction ranked generalizing budget with
    | nil => simp [assembleSelect, tokenSum]
    | cons c rest ih =>
      rw [assembleSelect]
      by_cases h : c.tokenCount ≤ budget
      · rw [if_pos h, tokenSum_cons]
        have := ih (budget - c.tokenCount)
        omega
      · rw [if_neg h]
        simp [tokenSum]

/-- C6: reranking returns a permutation of its candidate set — it adds and
removes nothing — sorted by the deterministic ordering: descending
relevance score, ties broken by document recency then chunk index; being a
pure function of its inputs, two runs with identical inputs produce
identical orderings. -/
theorem rerank_perm_sorted (recency : Nat → Nat) (score : Chunk → Nat)
    (candidates : List Chunk) :
    (rerank recency score candidates).Perm candidates ∧
    List.Sorted (rerankOrder recency score) (rerank recency score candidates) ∧
    ∀ other : List Chunk, other = candidates →
      rerank recency score other = rerank recency score candidates := by
  refine ⟨List.perm_insertionSort _ _, List.sorted_insertionSort _ _, ?_⟩
  intro other h
  rw [h]

/-- Membership in the visible index entries forces the owning document to
be in active state. -/
theorem mem_visibleEntries_state {st : Store} {c : Chunk}
    (h : c ∈ visibleEntries st) :
    docState st c.docId = some LifecycleState.active := by
  have h2 := (List.mem_filter.mp h).2
  simpa using h2

/-- C1: a document whose lifecycle state is not active never contributes a
chunk to the retrieval output — the chunks served by Retrieve (hence by
Search and Ask) come only from the visible index entries, which are exactly
the chunks of active documents. -/
theorem retrieval_visibility (st : Store) (vectorScore : Chunk → Nat)
    (recency : Nat → Nat) (rerankService : Option (Chunk → Nat)) (topM topK : Nat)
    (d : Nat) (hd : docState st d ≠ some LifecycleState.active) :
    ∀ c ∈ (retrieve st vectorScore recency rerankService topM topK).chunks,
      c.docId ≠ d := by
  intro c hc
  have h1 : c ∈ (rerankStage recency rerankService (vectorSearch st vectorScore topM)).chunks :=
    List.mem_of_mem_take hc
  have h2 : c ∈ vectorSearch st vectorScore topM := by
    cases rerankService with
    | none => simpa [rerankStage] using h1
    | some f => simpa [rerankStage, rerank] using h1
  have h3 : c ∈ visibleEntries st := by
    have h2a : c ∈ List.insertionSort (scoreOrder vectorScore) (visibleEntries st) :=
      List.mem_of_mem_take h2
    simpa using h2a
  intro hcd
  exact hd (hcd ▸ mem_visibleEntries_state h3)

/-- A store with one pending and one active document, each with one
chunk. -/
def exampleStore : Store :=
  { documents :=
      [ { docId := 1, contentHash := 11, uploader := 7
          state := LifecycleState.pendingReview, uploadedAt := 100 }
      , { docId := 2, contentHash := 22, uploader := 7
          state := LifecycleState.active, uploadedAt := 90 } ]
    chunks :=
      [ { docId := 1, chunkIndex := 0, text := "pending text", tokenCount := 10 }
      , { docId := 2, chunkIndex := 0, text := "active text", tokenCount := 10 } ] }

/-- Witness for retrieval_visibility: in exampleStore, document 1 is
pending, and no retrieved chunk carries document id 1. -/
theorem retrieval_visibility_witness :
    docState exampleStore 1 ≠ some LifecycleState.active ∧
    ∀ c ∈ (retrieve exampleStore (fun c => c.tokenCount) (fun _ => 0) none 5 3).chunks,
      c.docId ≠ 1 :=
  ⟨by decide,
    retrieval_visibility exampleStore (fun c => c.tokenCount) (fun _ => 0) none 5 3 1
      (by decide)⟩

/-- The chunk indices assigned by the chunker are exactly 0, 1, ..., n-1. -/
theorem chunkRecords_indices (docId target overlap : Nat) (tokens : List String) :
    (chunkRecords docId target overlap tokens).map (fun c => c.chunkIndex) =
      List.range (chunkTexts target overlap tokens).length := by
  rw [chunkRecords, List.map_map]
  have hcomp : ((fun c : Chunk => c.chunkIndex) ∘ fun p : Nat × List String =>
      ({ docId := docId, chunkIndex := p.1, text := String.intercalate " " p.2
         tokenCount := p.2.length } : Chunk)) = Prod.fst := rfl
  rw [hcomp, List.enum_map_fst]

/-- Every chunk record produced for a document carries that document's
id. -/
theorem chunkRecords_docId (docId target overlap : Nat) (tokens : List String) :
    ∀ c ∈ chunkRecords docId target overlap tokens, c.docId = docId := by
  intro c hc
  obtain ⟨p, _, hp⟩ := List.mem_map.mp hc
  rw [← hp]

/-- C3: a fresh (non-dedup) ingestion stores for the new document exactly
the freshly chunked records — atomically replacing whatever chunk records
that document id had before — and their chunk indices are exactly
0, 1, ..., n-1 with no gaps and no duplicates. -/
theorem ingest_chunk_indices (target overlap : Nat) (st : Store)
    (uploader contentHash : Nat) (tokens : List String) (newId now : Nat)
    (hfresh : dedupHit st uploader contentHash = none) :
    (ingest target overlap st uploader contentHash tokens newId now).store.chunks.filter
        (fun c => decide (c.docId = newId)) =
      chunkRecords newId target overlap tokens ∧
    chunkIndicesOf (ingest target overlap st uploader contentHash tokens newId now).store
        newId =
      List.range (chunkTexts target overlap tokens).length := by
  have hrep :
      (ingest target overlap st uploader contentHash tokens newId now).store.chunks.filter
          (fun c => decide (c.docId = newId)) =
        chunkRecords newId target overlap tokens := by
    rw [ingest, hfresh]
    rw [List.filter_append]
    have hall : (chunkRecords newId target overlap tokens).filter
        (fun c => decide (c.docId = newId)) = chunkRecords newId target overlap tokens := by
      refine List.filter_eq_self.mpr ?_
      intro c hc
      have := chunkRecords_docId newId target overlap tokens c hc
      simp [this]
    have hnone : (st.chunks.filter (fun c => decide (c.docId ≠ newId))).filter
        (fun c => decide (c.docId = newId)) = [] := by
      refine List.filter_eq_nil_iff.mpr ?_
      intro c hc
      have h2 := (List.mem_filter.mp hc).2
      simp at h2
      simp [h2]
    rw [hall, hnone, List.append_nil]
  refine ⟨hrep, ?_⟩
  rw [chunkIndicesOf, hrep, chunkRecords_indices]

/-- Witness for ingest_chunk_indices: ingesting two tokens into the empty
store. -/
theorem ingest_chunk_indices_witness :
    dedupHit { documents := [], chunks := [] } 7 5 = none ∧
    ((ingest 400 50 { documents := [], chunks := [] } 7 5 ["alpha", "beta"] 3
          100).store.chunks.filter (fun c => decide (c.docId = 3)) =
        chunkRecords 3 400 50 ["alpha", "beta"] ∧
      chunkIndicesOf
          (ingest 400 50 { documents := [], chunks := [] } 7 5 ["alpha", "beta"] 3
            100).store 3 =
        List.range (chunkTexts 400 50 ["alpha", "beta"]).length) :=
  ⟨by decide,
    ingest_chunk_indices 400 50 { documents := [], chunks := [] } 7 5 ["alpha", "beta"] 3
      100 (by decide)⟩

/-- C4: re-ingesting content with the same content hash for the same
uploader immediately after a first Ingest call returns the same document id
and leaves the whole stored state unchanged. -/
theorem ingest_idempotent (target overlap : Nat) (st : Store)
    (uploader contentHash : Nat) (tokens1 tokens2 : List String)
    (id1 id2 now1 now2 : Nat) :
    (ingest target overlap
        (ingest target overlap st uploader contentHash tokens1 id1 now1).store
        uploader contentHash tokens2 id2 now2).returnedId =
      (ingest target overlap st uploader contentHash tokens1 id1 now1).returnedId ∧
    (ingest target overlap
        (ingest target overlap st uploader contentHash tokens1 id1 now1).store
        uploader contentHash tokens2 id2 now2).store =
      (ingest target overlap st uploader contentHash tokens1 id1 now1).store := by
  cases h : dedupHit st uploader contentHash with
  | some d =>
    have h1 : ingest target overlap st uploader contentHash tokens1 id1 now1 =
        { returnedId := d.docId, store := st } := by
      rw [ingest, h]
    rw [h1, ingest, h]
    exact ⟨rfl, rfl⟩
  | none =>
    have h1 : (ingest target overlap st uploader contentHash tokens1 id1 now1).store.documents =
        { docId := id1, contentHash := contentHash, uploader := uploader
          state := LifecycleState.pendingReview, uploadedAt := now1 } ::
          st.documents.filter (fun d => decide (d.docId ≠ id1)) := by
      rw [ingest, h]
    have h2 : dedupHit
        (ingest target overlap st uploader contentHash tokens1 id1 now1).store uploader
        contentHash =
        some { docId := id1, contentHash := contentHash, uploader := uploader
               state := LifecycleState.pendingReview, uploadedAt := now1 } := by
      rw [dedupHit, h1]
      rw [List.find?_cons_of_pos]
      simp
    have h3 : (ingest target overlap st uploader contentHash tokens1 id1 now1).returnedId =
        id1 := by
      rw [ingest, h]
    rw [ingest, h2, h3]
    exact ⟨rfl, rfl⟩

end AstraRAG
